import Mathlib

/-
Verification of the jds6600-controller command compiler, duration estimator
and execution engine (src/jds_controller/commands.py, runner.py).

Modelling conventions used throughout this development:
  * Python floats are modelled as exact rationals (ℚ).  All arithmetic that
    the verified claims depend on (max/min, comparison, division, floor,
    linear interpolation) is exact on the values appearing in the claims.
  * Python ints are modelled as ℤ (or ℕ for indices that are provably
    non-negative).
  * fallible functions return `Except String α` (a raised ValueError) or
    `Option α` where the source swallows the exception.
  * `math.inf` as a duration is modelled with the `Dur` inductive
    (`Dur.inf` = infinity).
  * Python dicts produced by `json.loads` are modelled as association lists
    in parse order.
-/

namespace JdsController

/-! ## Data model (commands.py lines 13-102) -/

/-- JSON values as produced by `json.loads`.  Numbers (both ints and floats)
are collapsed into one rational-valued constructor; the distinction plays no
role in any verified claim. -/
inductive Json where
  | null : Json
  | bool (b : Bool) : Json
  | num (q : ℚ) : Json
  | str (s : String) : Json
  | arr (xs : List Json) : Json
  | obj (kvs : List (String × Json)) : Json
  deriving Repr

/-- Options mapping attached to steps (an open string-keyed dict). -/
abbrev Options := List (String × Json)

/-- CycleRangeSpec from commands.py lines 57-66: lazy inclusive arithmetic
progression from `start_hz` to `end_hz` in `step_hz` increments. -/
structure CycleRangeSpec where
  start_hz : ℚ
  end_hz : ℚ
  step_hz : ℚ
  deriving Repr, DecidableEq

/-- CycleItem (commands.py line 69): a literal frequency or a lazy range. -/
inductive CycleItem where
  | freq (hz : ℚ) : CycleItem
  | range (spec : CycleRangeSpec) : CycleItem
  deriving Repr, DecidableEq

/-- Step (commands.py line 91): the closed tagged union of the five step
kinds consumed by the runner. -/
inductive Step where
  | freq (hz : ℚ) (options : Options) (source_line : ℕ) : Step
  | wait (seconds : ℚ) (source_line : ℕ) : Step
  | stop (source_line : ℕ) : Step
  | mod (start_hz end_hz time_s update_ms : ℚ) (direction : String)
      (adaptive_voltage repeats : Bool) (options : Options) (source_line : ℕ) : Step
  | cycle (items : List CycleItem) (on_wait : ℚ) (off_wait : Option ℚ)
      (pause_hz : ℚ) (adaptive_voltage : Bool) (options : Options) (source_line : ℕ) : Step
  deriving Repr

/-- RawStep (commands.py lines 95-102): a Step or the internal raw
frequency-list record `_FreqListRaw` used only during parsing/expansion. -/
inductive RawStep where
  | flat (s : Step) : RawStep
  | freqList (freqs_hz : List ℚ) (options : Options) (source_line : ℕ) : RawStep
  deriving Repr

/-! ## Cycle range counting and lazy iteration
(commands.py `_cycle_range_count` lines 724-750, identical copy in
runner.py lines 158-183; runner.py `_iter_cycle_range` lines 186-212) -/

/-- Literal rational for the float literal `1e-12` used as a floor guard. -/
def eps12 : ℚ := 1 / 1000000000000

/-- Faithful translation of `_cycle_range_count` (commands.py lines 724-750):
count inclusive points in the range without materializing it.  The
`try: float(...)` conversions cannot fail on already-numeric fields and are
dropped.  Returns a Python int, modelled as ℤ. -/
def cycleRangeCount (spec : CycleRangeSpec) : ℤ :=
  let start := spec.start_hz
  let endv := spec.end_hz
  let step0 := spec.step_hz
  if step0 = 0 then 0
  else
    let span := endv - start
    if span = 0 then 1
    else
      let step : ℚ :=
        if span > 0 ∧ step0 < 0 then -step0
        else if span < 0 ∧ step0 > 0 then -step0
        else step0
      let n : ℤ := ⌊span / step + eps12⌋ + 1
      if n < 1 then 0 else n

/-- Faithful translation of `_iter_cycle_range` (runner.py lines 186-212):
yield `(k, freq, total_n)` for an inclusive range spec, lazily.  The Python
generator is modelled as the list of the triples it yields.  Note that the
frequency is computed from the ORIGINAL `step_hz` (the sign normalization
inside `_cycle_range_count` is local to the count). -/
def iterCycleRange (spec : CycleRangeSpec) (start_k : ℤ := 0) :
    List (ℤ × ℚ × ℤ) :=
  let n := cycleRangeCount spec
  if n ≤ 0 then []
  else
    let start := spec.start_hz
    let endv := spec.end_hz
    let step := spec.step_hz
    if step = 0 then []
    else
      let sk := if start_k < 0 then 0 else start_k
      if sk ≥ n then []
      else
        (List.range (n - sk).toNat).map fun (j : ℕ) =>
          let k : ℤ := sk + (j : ℤ)
          let freq := start + step * (k : ℚ)
          -- clamp tiny FP overshoots to end
          let freq :=
            if step > 0 ∧ freq > endv then endv
            else if step < 0 ∧ freq < endv then endv
            else freq
          (k, freq, n)

/-- Count of points in a list of cycle items (commands.py `_cycle_items_count`
lines 753-760): 1 per literal plus the closed-form count per range. -/
def cycleItemsCount (items : List CycleItem) : ℤ :=
  items.foldl
    (fun total it =>
      match it with
      | .range spec => total + cycleRangeCount spec
      | .freq _ => total + 1)
    0

/-! ## Duration estimator (commands.py lines 776-848) -/

/-- Duration of a step: a finite number of seconds or `math.inf`. -/
inductive Dur where
  | fin (q : ℚ) : Dur
  | inf : Dur
  deriving Repr, DecidableEq

/-- Inner helper `_eff_wait` of `estimate_step_duration` (commands.py lines
799-813): a missing or non-positive wait contributes 0; a positive wait is
replaced by the fixed-wait override when one is supplied.  The `try: float(..)`
fallbacks cannot fail on numeric inputs and are dropped. -/
def estEffWait (fixed_wait : Option ℚ) (w : Option ℚ) : ℚ :=
  match w with
  | none => 0
  | some wv =>
    if wv ≤ 0 then 0
    else
      match fixed_wait with
      | some fw => max 0 fw
      | none => max 0 wv

/-- Faithful translation of `estimate_step_duration` (commands.py lines
776-828).  Note the WaitStep branch applies `fixed_wait` unconditionally
(even to non-positive waits), unlike the cycle waits which go through
`_eff_wait`. -/
def estimateStepDuration (s : Step) (fixed_wait : Option ℚ := none) : Dur :=
  match s with
  | .wait seconds _ =>
    (match fixed_wait with
     | some fw => .fin (max 0 fw)
     | none => .fin (max 0 seconds))
  | .cycle items on_wait off_wait _ _ _ _ =>
    let count := cycleItemsCount items
    if count ≤ 0 then .fin 0
    else
      let onv := estEffWait fixed_wait (some on_wait)
      let offv :=
        match off_wait with
        | some w => estEffWait fixed_wait (some w)
        | none => 0
      .fin ((count : ℚ) * (onv + offv))
  | .mod _ _ time_s _ direction _ repeats _ _ =>
    if repeats then .inf
    else
      let legs : ℚ := if direction = "rise-and-fall" then 2 else 1
      .fin (max 0 (time_s * legs))
  | _ => .fin 0

/-- Accumulating loop of `estimate_remaining_run_time` (commands.py lines
842-847): add step durations, returning `math.inf` as soon as one step is
unbounded. -/
def estRunGo (fixed_wait : Option ℚ) : List Step → ℚ → Dur
  | [], total => .fin total
  | s :: rest, total =>
    match estimateStepDuration s fixed_wait with
    | .inf => .inf
    | .fin d => estRunGo fixed_wait rest (total + d)

/-- Faithful translation of `estimate_remaining_run_time` (commands.py lines
831-848): estimate remaining run time from `start_index` (inclusive). -/
def estimateRemainingRunTime (steps : List Step) (start_index : ℕ)
    (fixed_wait : Option ℚ := none) : Dur :=
  estRunGo fixed_wait (steps.drop start_index) 0

/-- Translation of `estimate_remaining_wait_time` (commands.py lines 716-721):
the legacy variant that sums only WaitStep seconds. -/
def estimateRemainingWaitTime (steps : List Step) (start_index : ℕ) : ℚ :=
  (steps.drop start_index).foldl
    (fun total s =>
      match s with
      | .wait seconds _ => total + seconds
      | _ => total)
    0

/-! ## Runner helpers (runner.py) -/

/-- Python values that can reach `_channels_from_selector` as the channel
selector: `None`, an int, a string, or any other object.  Python bools are
ints (`True == 1`), so they are covered by the `pyint` constructor. -/
inductive PyVal where
  | pynone : PyVal
  | pyint (i : ℤ) : PyVal
  | pystr (s : String) : PyVal
  | pyother : PyVal
  deriving Repr, DecidableEq

/-- ASCII whitespace as stripped by Python `str.strip` (the model restricts
Python's unicode whitespace set to its ASCII members, which is exact for every
input the verified claims exercise). -/
def isSpacePy (c : Char) : Bool :=
  c = ' ' ∨ c = '\t' ∨ c = '\n' ∨ c = '\r' ∨ c = '\x0b' ∨ c = '\x0c'

/-- Python `str.strip()` over the character list. -/
def pyStripList (l : List Char) : List Char :=
  ((l.dropWhile isSpacePy).reverse.dropWhile isSpacePy).reverse

/-- Python `str.strip()`. -/
def pyStrip (s : String) : String := String.mk (pyStripList s.data)

/-- Python `str.lstrip()`. -/
def pyLStrip (s : String) : String := String.mk (s.data.dropWhile isSpacePy)

/-- Python `str.lower()` (ASCII case folding; the selector vocabulary and the
command aliases are all ASCII). -/
def pyLower (s : String) : String := String.mk (s.data.map Char.toLower)

/-- String branch of `_channels_from_selector` (runner.py lines 37-44):
vocabulary lookup on the stripped, lower-cased selector string. -/
def strChannels (s0 : String) : List ℤ :=
  let s := pyLower (pyStrip s0)
  if s = "1" ∨ s = "ch1" ∨ s = "channel1" then [1]
  else if s = "2" ∨ s = "ch2" ∨ s = "channel2" then [2]
  else if s = "both" ∨ s = "all" ∨ s = "12" ∨ s = "1+2" then [1, 2]
  else [1, 2]

/-- Faithful translation of `_channels_from_selector` (runner.py lines 32-45).
Resolves the channel selector to the list of physical channels. -/
def channelsFromSelector (sel : PyVal) (default_sel : String := "both") : List ℤ :=
  let sel := if sel = PyVal.pynone ∨ sel = PyVal.pystr "" then PyVal.pystr default_sel else sel
  match sel with
  | .pyint i => if i = 1 ∨ i = 2 then [i] else [1, 2]
  | .pystr s0 => strChannels s0
  | _ => [1, 2]

/-- Selector vocabulary documented for `_channels_from_selector`: the string
values (after strip and lower-casing) with a designated meaning. -/
def recognizedSelectors : List String :=
  ["1", "ch1", "channel1", "2", "ch2", "channel2", "both", "all", "12", "1+2"]

/-- Translation of `_clamp` (runner.py lines 120-121). -/
def clampR (x lo hi : ℝ) : ℝ := max lo (min hi x)

/-- Faithful translation of `_voltage_by_freq` (runner.py lines 124-134):
adaptive voltage curve `clamp(1.835 * f^0.223, 5, 20)` for positive
frequencies and 5.0 otherwise.  `math.pow` on floats is idealized as real
exponentiation. -/
noncomputable def voltageByFreq (f_hz : ℝ) : ℝ :=
  if f_hz ≤ 0 then 5
  else clampR (1.835 * f_hz ^ (0.223 : ℝ)) 5 20

/-- Python `round()` (round half to even) on an exact rational. -/
def pyRoundQ (x : ℚ) : ℤ :=
  let f := ⌊x⌋
  let d := x - f
  if d < 1 / 2 then f
  else if 1 / 2 < d then f + 1
  else if Even f then f else f + 1

/-- Faithful translation of `_calc_resume_start_k` (runner.py lines 717-729):
rescale a saved mod-sweep position `saved_k / saved_updates` onto a sweep
recomputed with `new_updates` update points, clamped to `[0, new_updates]`. -/
def calcResumeStartK (saved_k saved_updates new_updates : ℤ) : ℤ :=
  if new_updates ≤ 0 then 0
  else
    let frac : ℚ := (saved_k : ℚ) / ((max 1 saved_updates : ℤ) : ℚ)
    let k2 := pyRoundQ (frac * (new_updates : ℚ))
    if k2 < 0 then 0
    else if k2 > new_updates then new_updates
    else k2

/-- Effective wait seconds in the engine's WaitStep branch (runner.py line
851): the fixed-wait override replaces the step's seconds unconditionally. -/
def waitStepEffSeconds (fixed_wait_seconds : Option ℚ) (seconds : ℚ) : ℚ :=
  match fixed_wait_seconds with
  | some f => f
  | none => seconds

/-- Faithful translation of `_eff_wait_seconds`, nested in the engine's
CycleStep branch (runner.py lines 516-530): identical logic to the
estimator's `_eff_wait`. -/
def cycleEffWaitSeconds (fixed_wait_seconds : Option ℚ) (w : Option ℚ) : ℚ :=
  match w with
  | none => 0
  | some wv =>
    if wv ≤ 0 then 0
    else
      match fixed_wait_seconds with
      | some fw => max 0 fw
      | none => max 0 wv

/-! ## Legacy expansion (commands.py `_expand_steps`, lines 369-413) -/

/-- Lookahead of `_expand_steps` for the optional wait row immediately
following a raw frequency-list record (commands.py lines 383-386). -/
def peelWait : List RawStep → Option (ℚ × ℕ) × List RawStep
  | .flat (.wait w wl) :: r => (some (w, wl), r)
  | l => (none, l)

/-- Lookahead of `_expand_steps` for the optional `freq,0` pause row and the
optional wait row following it (commands.py lines 388-395). -/
def peelPause : List RawStep →
    Option ((ℚ × Options × ℕ) × Option (ℚ × ℕ)) × List RawStep
  | .flat (.freq hz o pl) :: r =>
    if hz = 0 then
      match r with
      | .flat (.wait w2 wl2) :: r2 => (some ((hz, o, pl), some (w2, wl2)), r2)
      | _ => (some ((hz, o, pl), none), r)
    else (none, .flat (.freq hz o pl) :: r)
  | l => (none, l)

/-- Lookahead of `_expand_steps` after a raw frequency-list record
(commands.py lines 382-395): an optional immediately-following wait row, an
optional `freq,0` row and, only after such a pause row, an optional second
wait row.  Returns the captured rows and the remaining raw steps. -/
def peelLegacyTail (l : List RawStep) :
    Option (ℚ × ℕ) × Option ((ℚ × Options × ℕ) × Option (ℚ × ℕ)) × List RawStep :=
  ((peelWait l).1, (peelPause (peelWait l).2).1, (peelPause (peelWait l).2).2)

theorem peelWait_length (l : List RawStep) : (peelWait l).2.length ≤ l.length := by
  unfold peelWait
  split <;> simp

theorem peelPause_length (l : List RawStep) : (peelPause l).2.length ≤ l.length := by
  unfold peelPause
  split
  · split
    · split
      · simp
        omega
      · simp
    · simp
  · simp

theorem peelLegacyTail_length (l : List RawStep) :
    (peelLegacyTail l).2.2.length ≤ l.length :=
  le_trans (peelPause_length (peelWait l).2) (peelWait_length l)

/-- Loop of `_expand_steps`, fuel-bounded so that it is structurally
recursive (the fuel only needs to cover the list length, since every
iteration consumes at least one raw step). -/
def expandStepsAux : ℕ → List RawStep → List Step
  | 0, _ => []
  | _ + 1, [] => []
  | fuel + 1, .flat s :: rest => s :: expandStepsAux fuel rest
  | fuel + 1, .freqList freqs opts line :: rest =>
    match peelLegacyTail rest with
    | (on_wait, pause, rest2) =>
      (freqs.flatMap fun f =>
        [Step.freq f opts line]
        ++ (match on_wait with
            | some (w, wl) => [Step.wait w wl]
            | none => [])
        ++ (match pause with
            | some ((phz, po, pl), ow) =>
              [Step.freq phz po pl]
              ++ (match ow with
                  | some (w2, wl2) => [Step.wait w2 wl2]
                  | none => [])
            | none => []))
      ++ expandStepsAux fuel rest2

/-- Faithful translation of `_expand_steps` (commands.py lines 369-413):
expand each `_FreqListRaw` by replaying the captured wait / `freq,0` / wait
group once per listed frequency; flat steps pass through unchanged. -/
def expandSteps (raw_steps : List RawStep) : List Step :=
  expandStepsAux raw_steps.length raw_steps

/-! ## Observer callback discipline of `run_sequence` (runner.py lines
214-915, dry-run control path)

The claims about observer callbacks concern only which callback invocations
are protected by an exception handler.  A callback is modelled as a function
into `Except Unit Unit` (`.error ()` = the callback raised).  `run_sequence`
is modelled on its `dry_run=True` control path with a quiescent
`RunnerState` (never paused, never stopped, no resume): on that path every
step reduces to its checkpoint, progress and status notifications, and the
run ends with `status("Done.")` and exit code 0.  The wall-clock throttle on
checkpoint notifications (runner.py lines 274-278) only gates whether the
callback fires at all and is elided; the status message text is abbreviated
(its exact wording plays no role in the claims). -/

/-- Checkpoint record built by `_set_checkpoint` (runner.py lines 255-266) at
a step boundary (`within=None`). -/
structure Checkpoint where
  v : ℕ
  step_index : ℕ
  step_kind : String
  source_line : ℕ
  deriving Repr, DecidableEq

/-- Python `type(step).__name__` for each step kind. -/
def stepKindName : Step → String
  | .freq .. => "FreqStep"
  | .wait .. => "WaitStep"
  | .stop .. => "StopStep"
  | .mod .. => "ModStep"
  | .cycle .. => "CycleStep"

/-- Source line carried by a step (`getattr(step, "source_line", 0)`). -/
def stepSourceLine : Step → ℕ
  | .freq _ _ l => l
  | .wait _ l => l
  | .stop l => l
  | .mod _ _ _ _ _ _ _ _ l => l
  | .cycle _ _ _ _ _ _ l => l

/-- Optional observer callback that may raise. -/
abbrev Callback (α : Type) := Option (α → Except Unit Unit)

/-- Observer callback set accepted by `run_sequence` (runner.py lines
220-228). -/
structure Callbacks where
  on_status : Callback String
  on_progress : Callback (ℕ × ℕ)
  on_checkpoint : Callback Checkpoint
  on_device_state : Callback String

/-- Translation of the `status` helper (runner.py lines 285-287): the
callback is invoked with NO exception handler, so a raise propagates. -/
def statusCall (cb : Callbacks) (msg : String) : Except Unit Unit :=
  match cb.on_status with
  | some f => f msg
  | none => .ok ()

/-- Translation of the `progress` helper (runner.py lines 289-291): the
callback is invoked with NO exception handler, so a raise propagates. -/
def progressCall (cb : Callbacks) (i total : ℕ) : Except Unit Unit :=
  match cb.on_progress with
  | some f => f (i, total)
  | none => .ok ()

/-- Translation of the notification part of `_set_checkpoint` (runner.py
lines 272-282): the `on_checkpoint` callback is wrapped in
`try: ... except Exception: pass`, so a raise is swallowed. -/
def setCheckpointCall (cb : Callbacks) (ck : Checkpoint) : Except Unit Unit :=
  match cb.on_checkpoint with
  | none => .ok ()
  | some f =>
    match f ck with
    | _ => .ok ()

/-- Abbreviated status line text emitted for a step (runner.py lines 345,
379, 613, 845, 864). -/
def stepStatusMsg (i total : ℕ) (step : Step) : String :=
  "[" ++ toString (i + 1) ++ "/" ++ toString total ++ "] " ++ stepKindName step

/-- Per-step callback sequence of the dry-run control path of `run_sequence`
(runner.py lines 312-907): boundary checkpoint, then progress, then the
step's status line; after the last step, `status("Done.")` and exit code 0. -/
def runStepsDry (cb : Callbacks) (total : ℕ) : List Step → ℕ → Except Unit ℤ
  | [], _ => do
    let _ ← statusCall cb "Done."
    .ok 0
  | step :: rest, i => do
    let _ ← setCheckpointCall cb ⟨1, i, stepKindName step, stepSourceLine step⟩
    let _ ← progressCall cb i total
    let _ ← statusCall cb (stepStatusMsg i total step)
    runStepsDry cb total rest (i + 1)

/-- Dry-run `run_sequence` restricted to its observer interactions. -/
def runSequenceDry (steps : List Step) (cb : Callbacks) : Except Unit ℤ :=
  runStepsDry cb steps.length steps 0

/-- Predicate: an optional callback never raises. -/
def neverRaises {α : Type} (c : Callback α) : Prop :=
  ∀ f, c = some f → ∀ a, f a = .ok ()

/-! ## Python number literals

`float(s)` acceptance and value, for the decimal literals the command
language uses.  The model covers sign, integer/fraction digits and exponent;
the `inf`/`infinity`/`nan` words and digit-group underscores accepted by
Python have no finite rational value and are treated separately where they
matter (`pyFloatWordAccepts`). -/

/-- Numeric value of a digit run. -/
def digitsVal (l : List Char) : ℕ :=
  l.foldl (fun a c => a * 10 + (c.toNat - '0'.toNat)) 0

/-- Parse a Python float literal (used for `float(cell)` on CSV cells). -/
def pyFloat? (s : String) : Option ℚ :=
  let l := pyStripList s.data
  let sl : ℚ × List Char :=
    match l with
    | '+' :: r => (1, r)
    | '-' :: r => (-1, r)
    | _ => (1, l)
  let sgn := sl.1
  let ipl := sl.2.span Char.isDigit
  let ip := ipl.1
  let fpl : List Char × List Char :=
    match ipl.2 with
    | '.' :: r => r.span Char.isDigit
    | _ => ([], ipl.2)
  let fp := if ipl.2.head? = some '.' then fpl.1 else []
  let rest := if ipl.2.head? = some '.' then fpl.2 else ipl.2
  if ip = [] ∧ fp = [] then none
  else
    let mant : ℚ := (digitsVal ip : ℚ) + (digitsVal fp : ℚ) / ((10 : ℚ) ^ fp.length)
    match rest with
    | [] => some (sgn * mant)
    | c :: r =>
      if c = 'e' ∨ c = 'E' then
        let esl : ℤ × List Char :=
          match r with
          | '+' :: rr => (1, rr)
          | '-' :: rr => (-1, rr)
          | _ => (1, r)
        let edl := esl.2.span Char.isDigit
        if edl.1 = [] ∨ edl.2 ≠ [] then none
        else some (sgn * mant * (10 : ℚ) ^ (esl.1 * (digitsVal edl.1 : ℤ)))
      else none

/-- Python `float(s)` acceptance of the word literals with no rational value
(`inf`, `infinity`, `nan`, case-insensitive). -/
def pyFloatWordAccepts (s : String) : Bool :=
  let w := pyLower (pyStrip s)
  w = "inf" ∨ w = "infinity" ∨ w = "nan"

/-- Translation of `_is_number` (commands.py lines 112-117): does `float(s)`
succeed. -/
def isNumber (s : String) : Bool :=
  (pyFloat? s).isSome ∨ pyFloatWordAccepts s

/-! ## Strict JSON parsing (`json.loads`)

Recursive-descent parser for the JSON grammar as accepted by `json.loads`:
objects, arrays, double-quoted strings with escapes, numbers without leading
zeros, `true`/`false`/`null`; strings reject unescaped control characters,
objects and arrays reject trailing commas.  Two conscious restrictions,
neither reachable from the verified claims: the non-standard `NaN`/`Infinity`
words are rejected, and a `\uXXXX` escape is decoded as a single code unit
(surrogate pairs are not recombined).  Recursion is bounded by a fuel
argument; `jsonLoads` supplies more fuel than any input can consume. -/

/-- JSON insignificant whitespace. -/
def jsonWs (c : Char) : Bool :=
  c = ' ' ∨ c = '\t' ∨ c = '\n' ∨ c = '\r'

/-- Drop insignificant whitespace. -/
def jsonSkipWs (l : List Char) : List Char :=
  l.dropWhile jsonWs

/-- Value of a hexadecimal digit, 16 for non-hex characters. -/
def hexVal (c : Char) : ℕ :=
  if '0' ≤ c ∧ c ≤ '9' then c.toNat - '0'.toNat
  else if 'a' ≤ c ∧ c ≤ 'f' then c.toNat - 'a'.toNat + 10
  else if 'A' ≤ c ∧ c ≤ 'F' then c.toNat - 'A'.toNat + 10
  else 16

/-- Parse the body of a JSON string (after the opening quote), returning the
decoded string and the remaining input. -/
def jsonParseStringBody (acc : List Char) : List Char → Option (String × List Char)
  | [] => none
  | '"' :: rest => some (String.mk acc.reverse, rest)
  | '\\' :: rest =>
    match rest with
    | '"' :: r => jsonParseStringBody ('"' :: acc) r
    | '\\' :: r => jsonParseStringBody ('\\' :: acc) r
    | '/' :: r => jsonParseStringBody ('/' :: acc) r
    | 'b' :: r => jsonParseStringBody ('\x08' :: acc) r
    | 'f' :: r => jsonParseStringBody ('\x0c' :: acc) r
    | 'n' :: r => jsonParseStringBody ('\n' :: acc) r
    | 'r' :: r => jsonParseStringBody ('\r' :: acc) r
    | 't' :: r => jsonParseStringBody ('\t' :: acc) r
    | 'u' :: a :: b :: c :: d :: r =>
      if hexVal a < 16 ∧ hexVal b < 16 ∧ hexVal c < 16 ∧ hexVal d < 16 then
        jsonParseStringBody
          (Char.ofNat (((hexVal a * 16 + hexVal b) * 16 + hexVal c) * 16 + hexVal d) :: acc) r
      else none
    | _ => none
  | c :: rest =>
    if c.toNat < 32 then none
    else jsonParseStringBody (c :: acc) rest

/-- Parse a JSON number (strict grammar: no leading zeros, a fraction and an
exponent need at least one digit). -/
def jsonParseNumber (l : List Char) : Option (ℚ × List Char) :=
  let sl : Bool × List Char :=
    match l with
    | '-' :: r => (true, r)
    | _ => (false, l)
  let ipl := sl.2.span Char.isDigit
  if ipl.1 = [] then none
  else if ipl.1.length > 1 ∧ ipl.1.head? = some '0' then none
  else
    let fracStep : Option (ℚ × List Char) :=
      match ipl.2 with
      | '.' :: r =>
        let fdl := r.span Char.isDigit
        if fdl.1 = [] then none
        else some ((digitsVal fdl.1 : ℚ) / ((10 : ℚ) ^ fdl.1.length), fdl.2)
      | _ => some (0, ipl.2)
    match fracStep with
    | none => none
    | some (frac, l3) =>
      let expStep : Option (ℤ × List Char) :=
        match l3 with
        | c :: r =>
          if c = 'e' ∨ c = 'E' then
            let esl : ℤ × List Char :=
              match r with
              | '+' :: rr => (1, rr)
              | '-' :: rr => (-1, rr)
              | _ => (1, r)
            let edl := esl.2.span Char.isDigit
            if edl.1 = [] then none
            else some (esl.1 * (digitsVal edl.1 : ℤ), edl.2)
          else some (0, l3)
        | [] => some (0, l3)
      match expStep with
      | none => none
      | some (ex, l4) =>
        let mant : ℚ := (digitsVal ipl.1 : ℚ) + frac
        some ((if sl.1 then -mant else mant) * (10 : ℚ) ^ ex, l4)

/-- Parse the members of a JSON object (positioned at a key), with nested
values parsed by the supplied value parser. -/
def jsonParseObjItemsF (pv : List Char → Option (Json × List Char)) :
    ℕ → List Char → Option (List (String × Json) × List Char)
  | 0, _ => none
  | f + 1, l =>
    match jsonSkipWs l with
    | '"' :: r =>
      (match jsonParseStringBody [] r with
       | none => none
       | some (key, r2) =>
         match jsonSkipWs r2 with
         | ':' :: r3 =>
           (match pv r3 with
            | none => none
            | some (v, r4) =>
              match jsonSkipWs r4 with
              | ',' :: r5 =>
                (match jsonParseObjItemsF pv f r5 with
                 | none => none
                 | some (items, r6) => some ((key, v) :: items, r6))
              | '}' :: r5 => some ([(key, v)], r5)
              | _ => none)
         | _ => none)
    | _ => none

/-- Parse the elements of a JSON array (positioned at a value), with the
elements parsed by the supplied value parser. -/
def jsonParseArrItemsF (pv : List Char → Option (Json × List Char)) :
    ℕ → List Char → Option (List Json × List Char)
  | 0, _ => none
  | f + 1, l =>
    match pv l with
    | none => none
    | some (v, r) =>
      match jsonSkipWs r with
      | ',' :: r2 =>
        (match jsonParseArrItemsF pv f r2 with
         | none => none
         | some (xs, r3) => some (v :: xs, r3))
      | ']' :: r2 => some ([v], r2)
      | _ => none

/-- Parse one JSON value (nesting depth bounded by the fuel argument). -/
def jsonParseValue : ℕ → List Char → Option (Json × List Char)
  | 0, _ => none
  | f + 1, l =>
    match jsonSkipWs l with
    | '{' :: rest =>
      (match jsonSkipWs rest with
       | '}' :: r2 => some (.obj [], r2)
       | _ =>
         match jsonParseObjItemsF (jsonParseValue f) (rest.length + 1) rest with
         | some (kvs, r2) => some (.obj kvs, r2)
         | none => none)
    | '[' :: rest =>
      (match jsonSkipWs rest with
       | ']' :: r2 => some (.arr [], r2)
       | _ =>
         match jsonParseArrItemsF (jsonParseValue f) (rest.length + 1) rest with
         | some (xs, r2) => some (.arr xs, r2)
         | none => none)
    | '"' :: rest =>
      (match jsonParseStringBody [] rest with
       | some (str, r2) => some (.str str, r2)
       | none => none)
    | 't' :: 'r' :: 'u' :: 'e' :: r => some (.bool true, r)
    | 'f' :: 'a' :: 'l' :: 's' :: 'e' :: r => some (.bool false, r)
    | 'n' :: 'u' :: 'l' :: 'l' :: r => some (.null, r)
    | l2 =>
      match jsonParseNumber l2 with
      | some (q, r) => some (.num q, r)
      | none => none

/-- Python `json.loads`: parse a complete JSON document (trailing whitespace
allowed, trailing garbage rejected). -/
def jsonLoads (s : String) : Option Json :=
  match jsonParseValue (2 * s.data.length + 2) s.data with
  | some (v, rest) => if jsonSkipWs rest = [] then some v else none
  | none => none

/-- Inner helper `try_json` of `_parse_json_options` (commands.py lines
323-327): strict parse, then require the result to be a JSON object. -/
def tryJson (s : String) : Option Options :=
  match jsonLoads s with
  | some (.obj kvs) => some kvs
  | _ => none

/-! ## The three best-effort repair transforms of `_parse_json_options`

Each Python `re.sub` is translated as a left-to-right scanner: at each
position it attempts the pattern; on a match it emits the replacement and
resumes after the match, otherwise it emits one character and moves on
(exactly the non-overlapping leftmost semantics of `re.sub`; none of the
three patterns can backtrack, since every quantified class is disjoint from
the class that follows it).  Scanners are fuel-bounded; callers supply the
input length, which the remaining-input length never exceeds. -/

/-- Character class `\s` of Python `re` (ASCII members). -/
def reSpace (c : Char) : Bool :=
  c = ' ' ∨ c = '\t' ∨ c = '\n' ∨ c = '\r' ∨ c = '\x0b' ∨ c = '\x0c'

/-- Character class `[A-Za-z_]` (first character of a bare key or value). -/
def reIdentStart (c : Char) : Bool :=
  ('A' ≤ c ∧ c ≤ 'Z') ∨ ('a' ≤ c ∧ c ≤ 'z') ∨ c = '_'

/-- Character class `[A-Za-z0-9_]` (bare-key characters). -/
def reIdentChar (c : Char) : Bool :=
  reIdentStart c ∨ ('0' ≤ c ∧ c ≤ '9')

/-- Character class `[A-Za-z0-9_+-]` (bare-value characters). -/
def reValChar (c : Char) : Bool :=
  reIdentChar c ∨ c = '+' ∨ c = '-'

/-- Scanner for `re.sub(r",\s*([}\]])", r"\1", s)` (commands.py line 336):
drop a comma (with following whitespace) that directly precedes a closing
brace or bracket. -/
def stripTCAux : ℕ → List Char → List Char
  | 0, l => l
  | _ + 1, [] => []
  | fuel + 1, ',' :: rest =>
    let ws := rest.dropWhile reSpace
    (match ws with
     | c :: r2 =>
       if c = '}' ∨ c = ']' then c :: stripTCAux fuel r2
       else ',' :: stripTCAux fuel rest
     | [] => ',' :: stripTCAux fuel rest)
  | fuel + 1, c :: rest => c :: stripTCAux fuel rest

/-- Removal of trailing commas (repair 2 of `_parse_json_options`). -/
def stripTrailingCommas (s : String) : String :=
  String.mk (stripTCAux s.data.length s.data)

/-- Match attempt at a `,` or `{` for the bare-key pattern
`([,{]\s*)([A-Za-z_][A-Za-z0-9_]*)\s*:`: returns the whitespace of group 1,
the identifier of group 2 and the input after the colon. -/
def qbkMatch (rest : List Char) : Option (List Char × List Char × List Char) :=
  let ws := rest.takeWhile reSpace
  let r1 := rest.dropWhile reSpace
  let ident := r1.takeWhile reIdentChar
  let r2 := r1.dropWhile reIdentChar
  match ident.head? with
  | some c0 =>
    if reIdentStart c0 then
      match r2.dropWhile reSpace with
      | ':' :: tail => some (ws, ident, tail)
      | _ => none
    else none
  | none => none

/-- Scanner for `re.sub(r"([,{]\s*)([A-Za-z_][A-Za-z0-9_]*)\s*:", r'\1"\2":', s)`
(commands.py line 343): wrap a bare object key in double quotes. -/
def quoteBKAux : ℕ → List Char → List Char
  | 0, l => l
  | _ + 1, [] => []
  | fuel + 1, c :: rest =>
    if c = ',' ∨ c = '{' then
      match qbkMatch rest with
      | some (ws, ident, tail) =>
        c :: ws ++ '"' :: ident ++ '"' :: ':' :: quoteBKAux fuel tail
      | none => c :: quoteBKAux fuel rest
    else c :: quoteBKAux fuel rest

/-- Quoting of bare object keys (repair 3 of `_parse_json_options`). -/
def quoteBareKeys (s : String) : String :=
  String.mk (quoteBKAux s.data.length s.data)

/-- Match attempt at a `:` for the bare-value pattern
`:\s*([A-Za-z_][A-Za-z0-9_+-]*)(\s*[,}])`: returns the value word of group 1
and the whitespace, closing character and remaining input of group 2. -/
def qbvMatch (rest : List Char) : Option (List Char × List Char × Char × List Char) :=
  let r1 := rest.dropWhile reSpace
  let val := r1.takeWhile reValChar
  let r2 := r1.dropWhile reValChar
  match val.head? with
  | some c0 =>
    if reIdentStart c0 then
      let ws2 := r2.takeWhile reSpace
      match r2.dropWhile reSpace with
      | c :: tail =>
        if c = ',' ∨ c = '}' then some (val, ws2, c, tail) else none
      | [] => none
    else none
  | none => none

/-- Replacement function `_quote_val` (commands.py lines 346-355): keep
`true`/`false`/`null` and numeric words unquoted, wrap anything else in
double quotes.  Given the matched character class (a letter or underscore
followed by letters, digits, `_`, `+`, `-`), `float(val)` succeeds exactly
on the `inf`/`infinity`/`nan` words. -/
def pyQuoteVal (val : List Char) : List Char :=
  let v := String.mk val
  if v = "true" ∨ v = "false" ∨ v = "null" then val
  else if (pyFloat? v).isSome ∨ pyFloatWordAccepts v then val
  else '"' :: val ++ ['"']

/-- Scanner for `re.sub(r":\s*([A-Za-z_][A-Za-z0-9_+-]*)(\s*[,}])", _quote_val, s)`
(commands.py line 357): quote a bare scalar value; the replacement rebuilds
the match as `: <value><group2>` (one space after the colon). -/
def quoteBVAux : ℕ → List Char → List Char
  | 0, l => l
  | _ + 1, [] => []
  | fuel + 1, c :: rest =>
    if c = ':' then
      match qbvMatch rest with
      | some (val, ws2, close, tail) =>
        ':' :: ' ' :: pyQuoteVal val ++ ws2 ++ close :: quoteBVAux fuel tail
      | none => ':' :: quoteBVAux fuel rest
    else c :: quoteBVAux fuel rest

/-- Quoting of bare scalar string values (repair 4 of `_parse_json_options`). -/
def quoteBareValues (s : String) : String :=
  String.mk (quoteBVAux s.data.length s.data)

/-- Text of `_parse_json_options` after the empty check: strip, then remove
an optional `json:` prefix, then an optional `py:` prefix (commands.py lines
314-321). -/
def optionsEffectiveText (raw0 : String) : String :=
  let raw1 := pyStrip raw0
  let raw2 :=
    if (pyLower raw1).data.take 5 = "json:".data then pyStrip (String.mk (raw1.data.drop 5))
    else raw1
  if (pyLower raw2).data.take 3 = "py:".data then pyStrip (String.mk (raw2.data.drop 3))
  else raw2

/-- Failure message of `_parse_json_options` (commands.py lines 362-365);
the Python exception text interpolated after "invalid JSON options:" is
elided. -/
def optionsErrorMsg (line_no : ℕ) (raw : String) : String :=
  "Line " ++ toString line_no
    ++ ": invalid JSON options. Hint: JSON requires double quotes and no trailing comma. Options seen: '"
    ++ raw ++ "'"

/-- Faithful translation of `_parse_json_options` (commands.py lines
302-365): strict JSON first; on failure strip trailing commas and re-try;
on failure quote bare keys AND bare values (with no intermediate re-try
between these two repairs) and re-try once; fail with a message quoting the
(prefix-stripped) original text.  The Python exception text interpolated
into the message is elided. -/
def parseJsonOptions (raw0 : String) (line_no : ℕ) : Except String Options :=
  if pyStrip raw0 = "" then .ok []
  else
    let raw := optionsEffectiveText raw0
    match tryJson raw with
    | some o => .ok o
    | none =>
      let cur := stripTrailingCommas raw
      match tryJson cur with
      | some o => .ok o
      | none =>
        let cur3 := quoteBareValues (quoteBareKeys cur)
        match tryJson cur3 with
        | some o => .ok o
        | none => .error (optionsErrorMsg line_no raw)

/-- Modelled from the spec: the option parser as §4.1 of the specification
describes it, re-attempting a strict parse after EACH individual repair
(strip trailing commas, quote bare keys, quote bare values).  It differs
from `parseJsonOptions` only in the extra strict-parse attempt between the
two quoting repairs. -/
def parseJsonOptionsSpec (raw0 : String) (line_no : ℕ) : Except String Options :=
  if pyStrip raw0 = "" then .ok []
  else
    let raw := optionsEffectiveText raw0
    match tryJson raw with
    | some o => .ok o
    | none =>
      let cur := stripTrailingCommas raw
      match tryJson cur with
      | some o => .ok o
      | none =>
        let cur2 := quoteBareKeys cur
        match tryJson cur2 with
        | some o => .ok o
        | none =>
          let cur3 := quoteBareValues cur2
          match tryJson cur3 with
          | some o => .ok o
          | none => .error (optionsErrorMsg line_no raw)

/-! ## Command CSV parsing (commands.py `parse_csv_commands`, lines 416-713)

The CSV layer is modelled for comma-delimited sources: both outcomes of the
dialect sniff (the `_LooseDialect` with `QUOTE_NONE`, or the `excel`
fallback) split a comma-delimited line plainly on `,`; quote characters are
passed through as ordinary text, and the model assumes no backslash escape
characters in the input (true of every input the verified claims use).
Only the `wait`/`stop`/`freq` records — the ones the verified claims
exercise — are modelled; a `cycle` or `mod` record is mapped to an explicit
placeholder parse error. -/

/-- Split a character list on a separator character (the CSV cell split for
a one-character delimiter with quoting disabled). -/
def splitOnCharAux (sep : Char) : List Char → List Char → List (List Char)
  | acc, [] => [acc.reverse]
  | acc, c :: rest =>
    if c = sep then acc.reverse :: splitOnCharAux sep [] rest
    else splitOnCharAux sep (c :: acc) rest

/-- Split a string on a separator character. -/
def splitOnChar (sep : Char) (s : String) : List String :=
  (splitOnCharAux sep [] s.data).map String.mk

/-- Python `str.startswith` on the model's strings. -/
def pyStartsWith (s pre : String) : Bool :=
  pre.data.isPrefixOf s.data

/-- Python `str.endswith` on the model's strings. -/
def pyEndsWith (s suf : String) : Bool :=
  suf.data.isSuffixOf s.data

/-- Translation of `_looks_like_list` (commands.py lines 143-145). -/
def looksLikeList (s : String) : Bool :=
  let st := pyStrip s
  pyStartsWith st "[" ∧ pyEndsWith st "]"

/-- Inner loop of `_consume_bracketed_token` (commands.py lines 164-174):
accumulate stripped cells while the running `[`/`]` balance stays positive;
returns the collected parts and how many cells were consumed. -/
def cbtLoop : List String → ℤ → List String × ℕ
  | [], _ => ([], 0)
  | c :: rest, balance =>
    let p := pyStrip c
    let balance := balance + (p.data.count '[' : ℤ) - (p.data.count ']' : ℤ)
    if balance ≤ 0 then ([p], 1)
    else
      let pr := cbtLoop rest balance
      (p :: pr.1, pr.2 + 1)

/-- Faithful translation of `_consume_bracketed_token` (commands.py lines
148-177): join CSV cells starting at `start_index` until a `[...]` token is
balanced; returns `(token, next_index)`. -/
def consumeBracketedToken (cells : List String) (start_index : ℕ)
    (delimiter : String) : String × ℕ :=
  match cells.drop start_index with
  | [] => ("", start_index)
  | c0 :: _ =>
    let first := pyStrip c0
    if ¬ pyStartsWith (pyLStrip first) "[" then (first, start_index + 1)
    else
      let pr := cbtLoop (cells.drop start_index) 0
      (String.intercalate delimiter pr.1, start_index + pr.2)

/-- Translation of `_parse_number_list` (commands.py lines 180-195) for flat
numeric lists, the only shape the command files use: `ast.literal_eval` on a
`[...]` token whose elements are numeric literals.  A token that is not a
bracketed comma-separated run of numeric literals fails (as the Python does,
though possibly from a different internal step), and an empty list is
rejected. -/
def parseNumberList (token : String) (line_no : ℕ) : Except String (List ℚ) :=
  let st := pyStrip token
  if ¬ (pyStartsWith st "[" ∧ pyEndsWith st "]") then
    .error ("Line " ++ toString line_no ++ ": invalid list syntax for frequencies")
  else
    let inner := String.mk ((st.data.drop 1).dropLast)
    if pyStrip inner = "" then
      .error ("Line " ++ toString line_no ++ ": frequency list is empty")
    else
      let cells := splitOnChar ',' inner
      let vals := cells.map pyFloat?
      if vals.all Option.isSome then
        .ok (vals.reduceOption)
      else
        .error ("Line " ++ toString line_no ++ ": invalid list syntax for frequencies")

/-- Command alias sets (commands.py lines 105-109). -/
def waitAliases : List String := ["wait", "sleep", "delay"]

/-- Stop command aliases. -/
def stopAliases : List String := ["stop", "off", "disable"]

/-- Frequency command aliases. -/
def freqAliases : List String := ["freq", "frequency", "f"]

/-- Cycle command aliases. -/
def cycleAliases : List String := ["cycle", "loop"]

/-- Mod command aliases. -/
def modAliases : List String := ["mod", "modulate", "sweep"]

/-- Per-row dispatch of `parse_csv_commands` (commands.py lines 461-711) on
an already-split, already-stripped row; yields at most one raw step.  The
`cycle` and `mod` branches (lines 498-707) are not needed by any verified
claim and are represented by an explicit placeholder parse failure. -/
def parseCsvRecord (idx : ℕ) (row : List String) (delimiter : String) :
    Except String (Option RawStep) :=
  match row with
  | [] => .ok none
  | c0 :: _ =>
    if c0 = "" ∨ pyStartsWith (pyLStrip c0) "#" then .ok none
    else
      let cmd := pyLower (pyStrip c0)
      if cmd ∈ waitAliases then
        match row.drop 1 with
        | [] => .error ("Line " ++ toString idx ++ ": wait expects seconds as number")
        | cell :: _ =>
          match pyFloat? cell with
          | some v => .ok (some (.flat (.wait v idx)))
          | none => .error ("Line " ++ toString idx ++ ": wait expects seconds as number")
      else if cmd ∈ stopAliases then
        .ok (some (.flat (.stop idx)))
      else if cmd ∈ freqAliases then
        if row.length < 2 then
          .error ("Line " ++ toString idx ++ ": freq expects <Hz> or <[list]> as second column")
        else
          let tn := consumeBracketedToken row 1 delimiter
          let token := pyStrip tn.1
          let opts_raw :=
            if tn.2 < row.length then String.intercalate delimiter (row.drop tn.2) else ""
          match (if pyStrip opts_raw ≠ "" then parseJsonOptions opts_raw idx else .ok []) with
          | .error e => .error e
          | .ok opts =>
            if looksLikeList token then
              match parseNumberList token idx with
              | .error e => .error e
              | .ok freqs => .ok (some (.freqList freqs opts idx))
            else
              match pyFloat? token with
              | some v => .ok (some (.flat (.freq v opts idx)))
              | none =>
                .error ("Line " ++ toString idx
                  ++ ": freq expects a number (Hz) or list like [1000,2000]")
      else if cmd ∈ cycleAliases then
        .error ("Line " ++ toString idx ++ ": cycle record outside the modelled fragment")
      else if cmd ∈ modAliases then
        .error ("Line " ++ toString idx ++ ": mod record outside the modelled fragment")
      else
        .error ("Line " ++ toString idx ++ ": unknown command '" ++ c0
          ++ "'. Use 'freq', 'wait', 'stop', 'cycle' or 'mod'.")

/-- Loop of `parse_csv_commands` over the enumerated source rows. -/
def parseCsvRecords (delimiter : String) : List (ℕ × String) → Except String (List RawStep)
  | [] => .ok []
  | (idx, line) :: rest =>
    let row := (splitOnChar ',' line).map pyStrip
    match parseCsvRecord idx row delimiter with
    | .error e => .error e
    | .ok r =>
      match parseCsvRecords delimiter rest with
      | .error e => .error e
      | .ok rs =>
        match r with
        | some s => .ok (s :: rs)
        | none => .ok rs

/-- Enumerate lines 1-based. -/
def enumLines (text : String) : List (ℕ × String) :=
  List.enumFrom 1 (splitOnChar '\n' text)

/-- Faithful translation of `parse_csv_commands` (commands.py lines 416-713)
for comma-delimited sources, composed with the legacy expansion.  File
loading is external; the model starts from the file text. -/
def parseCsvCommands (text : String) : Except String (List Step) :=
  if pyStrip text = "" then .ok []
  else
    match parseCsvRecords "," (enumLines text) with
    | .error e => .error e
    | .ok raw => .ok (expandSteps raw)

/-! ## Claim-level characterizations used by the estimator theorems -/

/-- Is the step a ModStep with `repeat=True` (the unbounded case)? -/
def isRepeatModB : Step → Bool
  | .mod _ _ _ _ _ _ repeats _ _ => repeats
  | _ => false

/-- A ModStep carries a non-negative sweep time (the compiler guarantees
`time_s > 0`, commands.py line 686). -/
def modTimeNonneg : Step → Prop
  | .mod _ _ t _ _ _ _ _ _ => 0 ≤ t
  | _ => True

/-- Per-step duration as claim C8 words it: a non-repeating ModStep
contributes `time_s * legs` (legs = 2 for rise-and-fall, else 1),
FreqStep/StopStep contribute 0, and the remaining kinds contribute their
individual estimator duration. -/
def claimStepDuration (fw : Option ℚ) : Step → ℚ
  | .freq .. => 0
  | .stop .. => 0
  | .mod _ _ t _ d _ _ _ _ => t * (if d = "rise-and-fall" then 2 else 1)
  | s =>
    match estimateStepDuration s fw with
    | .fin q => q
    | .inf => 0

/-! # Theorems -/

/-- Sign normalization of `_cycle_range_count` turns the signed span/step
quotient into the quotient of absolute values. -/
theorem normStep_div (span s : ℚ) (hspan : span ≠ 0) (hs : s ≠ 0) :
    span / (if span > 0 ∧ s < 0 then -s else if span < 0 ∧ s > 0 then -s else s)
      = |span| / |s| := by
  rcases lt_or_gt_of_ne hspan with hneg | hpos
  · rcases lt_or_gt_of_ne hs with hsneg | hspos
    · rw [if_neg (by rintro ⟨h1, _⟩; exact absurd h1 (not_lt.mpr hneg.le)),
          if_neg (by rintro ⟨_, h2⟩; exact absurd h2 (not_lt.mpr hsneg.le))]
      rw [abs_of_neg hneg, abs_of_neg hsneg, neg_div_neg_eq]
    · rw [if_neg (by rintro ⟨h1, _⟩; exact absurd h1 (not_lt.mpr hneg.le)),
          if_pos ⟨hneg, hspos⟩]
      rw [abs_of_neg hneg, abs_of_pos hspos, div_neg, neg_div]
  · rcases lt_or_gt_of_ne hs with hsneg | hspos
    · rw [if_pos ⟨hpos, hsneg⟩]
      rw [abs_of_pos hpos, abs_of_neg hsneg]
    · rw [if_neg (by rintro ⟨_, h2⟩; exact absurd h2 (not_lt.mpr hspos.le)),
          if_neg (by rintro ⟨h1, _⟩; exact absurd h1 (not_lt.mpr hpos.le))]
      rw [abs_of_pos hpos, abs_of_pos hspos]

/-- C4: for every cycle range `{start: a, end: b, step: s}` with `a ≠ b` and
`s ≠ 0`, the closed-form point count `_cycle_range_count` equals
`floor(|b - a| / |s| + 1e-12) + 1`, and it equals the number of points the
lazy range iterator `_iter_cycle_range` yields during execution. -/
theorem C4_cycle_range_count (a b s : ℚ) (hab : a ≠ b) (hs : s ≠ 0) :
    cycleRangeCount ⟨a, b, s⟩ = ⌊|b - a| / |s| + eps12⌋ + 1 ∧
    (iterCycleRange ⟨a, b, s⟩ 0).length = (cycleRangeCount ⟨a, b, s⟩).toNat := by
  have hspan : b - a ≠ 0 := sub_ne_zero.mpr (Ne.symm hab)
  have hx : (0:ℚ) ≤ |b - a| / |s| + eps12 :=
    add_nonneg (div_nonneg (abs_nonneg _) (abs_nonneg _)) (by norm_num [eps12])
  have hf : (0:ℤ) ≤ ⌊|b - a| / |s| + eps12⌋ := Int.floor_nonneg.mpr hx
  have hcount : cycleRangeCount ⟨a, b, s⟩ = ⌊|b - a| / |s| + eps12⌋ + 1 := by
    unfold cycleRangeCount
    simp only
    rw [if_neg hs, if_neg hspan, normStep_div (b - a) s hspan hs]
    rw [if_neg (by omega)]
  refine ⟨hcount, ?_⟩
  have hn : (1:ℤ) ≤ cycleRangeCount ⟨a, b, s⟩ := by rw [hcount]; omega
  unfold iterCycleRange
  simp only
  rw [if_neg (by omega), if_neg hs, if_neg (lt_irrefl (0:ℤ)), if_neg (by omega)]
  rw [List.length_map, List.length_range]
  simp

/-- C4 witness: the closed-form count and the iterator agree on the concrete
range `{start: 1, end: 3, step: 1}`. -/
theorem C4_cycle_range_count_witness :
    ((1:ℚ) ≠ 3 ∧ (1:ℚ) ≠ 0) ∧
    (cycleRangeCount ⟨1, 3, 1⟩ = ⌊|(3:ℚ) - 1| / |(1:ℚ)| + eps12⌋ + 1 ∧
     (iterCycleRange ⟨1, 3, 1⟩ 0).length = (cycleRangeCount ⟨1, 3, 1⟩).toNat) :=
  ⟨⟨by norm_num, by norm_num⟩, C4_cycle_range_count 1 3 1 (by norm_num) (by norm_num)⟩

/-- Flat raw steps pass through the fuelled expansion loop unchanged. -/
theorem expandStepsAux_on_flat (fuel : ℕ) :
    ∀ steps : List Step, steps.length ≤ fuel →
      expandStepsAux fuel (steps.map RawStep.flat) = steps := by
  induction fuel with
  | zero =>
    intro steps h
    cases steps with
    | nil => rfl
    | cons s rest => simp at h
  | succ f ih =>
    intro steps h
    cases steps with
    | nil => rfl
    | cons s rest =>
      simp only [List.map_cons, expandStepsAux]
      rw [ih rest (by simpa using Nat.le_of_succ_le_succ (by simpa using h))]

/-- Flat raw steps pass through `_expand_steps` unchanged. -/
theorem expandSteps_on_flat (steps : List Step) :
    expandSteps (steps.map RawStep.flat) = steps := by
  unfold expandSteps
  rw [List.length_map]
  exact expandStepsAux_on_flat steps.length steps le_rfl

/-- C6: the legacy expansion is idempotent: an already-flat step sequence
(no raw frequency-list records) passes through `_expand_steps` unchanged, so
re-expanding the output of `_expand_steps` is a no-op. -/
theorem C6_expansion_idempotent :
    (∀ steps : List Step, expandSteps (steps.map RawStep.flat) = steps) ∧
    (∀ raw : List RawStep,
      expandSteps ((expandSteps raw).map RawStep.flat) = expandSteps raw) :=
  ⟨expandSteps_on_flat, fun raw => expandSteps_on_flat (expandSteps raw)⟩

/-- C7: for a mod checkpoint with saved position `k` of `su` updates
(`su > 0`) resumed against a sweep recomputed with `nu` updates, the resume
start index equals `round((k / su) * nu)` (Python banker rounding) clamped
to `[0, nu]`. -/
theorem C7_mod_resume_rescale (k su nu : ℤ) (hsu : 0 < su) (hnu : 0 ≤ nu) :
    calcResumeStartK k su nu
      = max 0 (min nu (pyRoundQ ((k : ℚ) / (su : ℚ) * (nu : ℚ)))) := by
  unfold calcResumeStartK
  rcases eq_or_lt_of_le hnu with h0 | hpos
  · rw [if_pos (by omega)]
    rw [← h0]
    norm_num [pyRoundQ]
  · rw [if_neg (by omega)]
    simp only
    have hmax : (max (1:ℤ) su) = su := by omega
    rw [hmax]
    set r := pyRoundQ ((k:ℚ)/(su:ℚ) * (nu:ℚ)) with hr
    by_cases hc1 : r < 0
    · rw [if_pos hc1]; omega
    · rw [if_neg hc1]
      by_cases hc2 : r > nu
      · rw [if_pos hc2]; omega
      · rw [if_neg hc2]; omega

/-- C7 witness: a checkpoint saved with `updates=100, k=40` resumed against
`updates=50` starts at `k=20`. -/
theorem C7_mod_resume_rescale_witness : calcResumeStartK 40 100 50 = 20 := by
  have h := C7_mod_resume_rescale 40 100 50 (by norm_num) (by norm_num)
  rw [h]
  have h1 : (((40:ℤ):ℚ) / ((100:ℤ):ℚ) * ((50:ℤ):ℚ)) = 20 := by push_cast; norm_num
  rw [h1]
  have h2 : pyRoundQ 20 = 20 := by norm_num [pyRoundQ]
  rw [h2]
  norm_num

/-- C9: the adaptive voltage function returns
`clamp(1.835 * f^0.223, 5.0, 20.0)` when `f > 0` and exactly `5.0` when
`f ≤ 0`, so its result always lies in `[5.0, 20.0]`. -/
theorem C9_voltage_curve (f : ℝ) :
    (f ≤ 0 → voltageByFreq f = 5) ∧
    (0 < f → voltageByFreq f = clampR (1.835 * f ^ (0.223 : ℝ)) 5 20) ∧
    5 ≤ voltageByFreq f ∧ voltageByFreq f ≤ 20 := by
  unfold voltageByFreq clampR
  by_cases h : f ≤ 0
  · rw [if_pos h]
    exact ⟨fun _ => rfl, fun hq => absurd hq (not_lt.mpr h), by norm_num, by norm_num⟩
  · rw [if_neg h]
    exact ⟨fun hq => absurd hq h, fun _ => rfl, le_max_left _ _,
      max_le (by norm_num) (min_le_left _ _)⟩

/-- C9 witness: at the non-positive frequency `-1` the curve returns 5. -/
theorem C9_voltage_curve_witness : voltageByFreq (-1) = 5 :=
  (C9_voltage_curve (-1)).1 (by norm_num)

/-- String branch of the channel selector always yields one of the three
channel lists. -/
theorem strChannels_total (s0 : String) :
    strChannels s0 = [1] ∨ strChannels s0 = [2] ∨ strChannels s0 = [1, 2] := by
  unfold strChannels
  simp only
  split
  · exact Or.inl rfl
  · split
    · exact Or.inr (Or.inl rfl)
    · split
      · exact Or.inr (Or.inr rfl)
      · exact Or.inr (Or.inr rfl)

/-- A selector string outside the documented vocabulary resolves to both
channels. -/
theorem strChannels_unrecognized (s0 : String)
    (h : pyLower (pyStrip s0) ∉ recognizedSelectors) : strChannels s0 = [1, 2] := by
  simp only [recognizedSelectors, List.mem_cons, List.not_mem_nil, or_false] at h
  push_neg at h
  obtain ⟨h1, h2, h3, h4, h5, h6, h7, h8, h9, h10⟩ := h
  unfold strChannels
  simp only
  rw [if_neg (by tauto), if_neg (by tauto), if_neg (by tauto)]

/-- C10: the channel-selector resolver is total: every input resolves to
`[1]`, `[2]` or `[1, 2]`; ints other than 1/2, non-empty unrecognized
strings, other object types, and `None` under the default `"both"` all
silently resolve to `[1, 2]` without raising. -/
theorem C10_channel_selector (d : String) :
    (∀ sel, channelsFromSelector sel d = [1] ∨ channelsFromSelector sel d = [2] ∨
      channelsFromSelector sel d = [1, 2]) ∧
    (∀ i : ℤ, i ≠ 1 → i ≠ 2 → channelsFromSelector (.pyint i) d = [1, 2]) ∧
    (∀ s : String, s ≠ "" → pyLower (pyStrip s) ∉ recognizedSelectors →
      channelsFromSelector (.pystr s) d = [1, 2]) ∧
    channelsFromSelector .pyother d = [1, 2] ∧
    channelsFromSelector .pynone "both" = [1, 2] := by
  refine ⟨?_, ?_, ?_, ?_, ?_⟩
  · intro sel
    rcases sel with _ | i | s | _
    · simpa [channelsFromSelector] using strChannels_total d
    · by_cases hi : i = 1 ∨ i = 2
      · rcases hi with rfl | rfl
        · exact Or.inl (by simp [channelsFromSelector])
        · exact Or.inr (Or.inl (by simp [channelsFromSelector]))
      · exact Or.inr (Or.inr (by simp [channelsFromSelector, hi]))
    · by_cases hs : s = ""
      · subst hs
        simpa [channelsFromSelector] using strChannels_total d
      · simpa [channelsFromSelector, hs] using strChannels_total s
    · exact Or.inr (Or.inr (by simp [channelsFromSelector]))
  · intro i h1 h2
    simp [channelsFromSelector, h1, h2]
  · intro s hs hvoc
    simp only [channelsFromSelector, if_neg (by simp [hs] :
      ¬(PyVal.pystr s = PyVal.pynone ∨ PyVal.pystr s = PyVal.pystr ""))]
    exact strChannels_unrecognized s hvoc
  · simp [channelsFromSelector]
  · have h : channelsFromSelector .pynone "both" = strChannels "both" := by
      simp [channelsFromSelector]
    rw [h]
    decide

/-- C10 witness: the out-of-vocabulary int 7 and string "weird" both resolve
to `[1, 2]`. -/
theorem C10_channel_selector_witness :
    channelsFromSelector (.pyint 7) "both" = [1, 2] ∧
    channelsFromSelector (.pystr "weird") "both" = [1, 2] := by
  have h := C10_channel_selector "both"
  exact ⟨h.2.1 7 (by decide) (by decide), h.2.2.1 "weird" (by decide) (by decide)⟩

/-- C2 counterexample: a WaitStep whose original duration is 0 does NOT
contribute 0 under a fixed-wait override of 5 — the estimator returns 5
(the override is applied unconditionally), and the engine's effective wait
is likewise lengthened to 5. -/
theorem C2_counterexample :
    estimateStepDuration (Step.wait 0 1) (some 5) = Dur.fin 5 ∧
    Dur.fin (5:ℚ) ≠ Dur.fin 0 ∧
    waitStepEffSeconds (some 5) 0 = 5 :=
  ⟨rfl, by decide, rfl⟩

/-- C2 (amended): the fixed-wait override replaces a Cycle on/off wait only
when the original wait is positive (a non-positive cycle wait contributes 0
and is never lengthened), but it replaces a WaitStep's duration
unconditionally: the estimator contributes `max(0, fixed_wait)` and the
engine waits the override value regardless of the step's own seconds. -/
theorem C2_fixed_wait_override_amended :
    (∀ fw : Option ℚ, ∀ w : ℚ, w ≤ 0 →
      cycleEffWaitSeconds fw (some w) = 0 ∧ estEffWait fw (some w) = 0) ∧
    (∀ f w : ℚ, 0 < w →
      cycleEffWaitSeconds (some f) (some w) = max 0 f ∧
      estEffWait (some f) (some w) = max 0 f) ∧
    (∀ (f s : ℚ) (l : ℕ),
      estimateStepDuration (Step.wait s l) (some f) = .fin (max 0 f) ∧
      waitStepEffSeconds (some f) s = f) ∧
    (∀ (s : ℚ) (l : ℕ),
      estimateStepDuration (Step.wait s l) none = .fin (max 0 s) ∧
      waitStepEffSeconds none s = s) := by
  refine ⟨?_, ?_, ?_, ?_⟩
  · intro fw w hw
    exact ⟨by simp [cycleEffWaitSeconds, hw], by simp [estEffWait, hw]⟩
  · intro f w hw
    exact ⟨by simp [cycleEffWaitSeconds, not_le.mpr hw],
           by simp [estEffWait, not_le.mpr hw]⟩
  · exact fun f s l => ⟨rfl, rfl⟩
  · exact fun s l => ⟨rfl, rfl⟩

/-- C2 witness: concrete cycle waits under override 3 — a negative wait
stays 0, a positive wait becomes the override. -/
theorem C2_witness :
    cycleEffWaitSeconds (some 3) (some (-1)) = 0 ∧
    cycleEffWaitSeconds (some 3) (some 2) = max 0 3 := by
  have h := C2_fixed_wait_override_amended
  exact ⟨(h.1 (some 3) (-1) (by norm_num)).1, (h.2.1 3 2 (by norm_num)).1⟩

/-- A step's estimated duration is infinite exactly when it is a repeating
ModStep. -/
theorem estimateStepDuration_inf_iff (s : Step) (fw : Option ℚ) :
    estimateStepDuration s fw = .inf ↔ isRepeatModB s = true := by
  cases s with
  | wait sec l => cases fw <;> simp [estimateStepDuration, isRepeatModB]
  | cycle items onw offw p av o l =>
    simp only [estimateStepDuration, isRepeatModB]
    split <;> simp
  | mod a b t u d av rep o l =>
    cases rep <;> simp [estimateStepDuration, isRepeatModB]
  | freq hz o l => simp [estimateStepDuration, isRepeatModB]
  | stop l => simp [estimateStepDuration, isRepeatModB]

/-- For non-repeating steps with non-negative mod time, the estimator's
per-step duration is the claim's per-step duration. -/
theorem estimateStepDuration_eq_claim (s : Step) (fw : Option ℚ)
    (h1 : isRepeatModB s = false) (h2 : modTimeNonneg s) :
    estimateStepDuration s fw = .fin (claimStepDuration fw s) := by
  cases s with
  | wait sec l => cases fw <;> rfl
  | cycle items onw offw p av o l =>
    simp only [estimateStepDuration, claimStepDuration]
    split <;> rfl
  | mod a b t u d av rep o l =>
    cases rep with
    | true => exact absurd h1 (by simp [isRepeatModB])
    | false =>
      simp only [estimateStepDuration, claimStepDuration, Bool.false_eq_true, if_false]
      have hlegs : (0:ℚ) ≤ t * (if d = "rise-and-fall" then 2 else 1) := by
        have ht : (0:ℚ) ≤ t := h2
        split <;> positivity
      rw [max_eq_right hlegs]
  | freq hz o l => rfl
  | stop l => rfl

/-- The estimator loop returns infinity exactly when some listed step is a
repeating ModStep. -/
theorem estRunGo_inf_iff (fw : Option ℚ) (l : List Step) (total : ℚ) :
    estRunGo fw l total = .inf ↔ ∃ s ∈ l, isRepeatModB s := by
  induction l generalizing total with
  | nil => simp [estRunGo]
  | cons s rest ih =>
    simp only [estRunGo]
    rcases hd : estimateStepDuration s fw with q | _
    · simp only
      rw [ih]
      constructor
      · exact fun ⟨x, hx, hb⟩ => ⟨x, List.mem_cons_of_mem _ hx, hb⟩
      · rintro ⟨x, hx, hb⟩
        rcases List.mem_cons.mp hx with rfl | hx2
        · exact absurd ((estimateStepDuration_inf_iff x fw).mpr hb) (by rw [hd]; simp)
        · exact ⟨x, hx2, hb⟩
    · simp only
      constructor
      · intro _
        exact ⟨s, List.mem_cons_self _ _, (estimateStepDuration_inf_iff s fw).mp hd⟩
      · intro _
        trivial

/-- With no repeating ModStep in the list, the estimator loop returns the
accumulated finite sum of the per-step durations. -/
theorem estRunGo_fin (fw : Option ℚ) (l : List Step)
    (h : ∀ s ∈ l, isRepeatModB s = false ∧ modTimeNonneg s) (total : ℚ) :
    estRunGo fw l total = .fin (total + (l.map (claimStepDuration fw)).sum) := by
  induction l generalizing total with
  | nil => simp [estRunGo]
  | cons s rest ih =>
    have hs := h s (List.mem_cons_self _ _)
    simp only [estRunGo, estimateStepDuration_eq_claim s fw hs.1 hs.2]
    rw [ih (fun x hx => h x (List.mem_cons_of_mem _ hx))]
    simp [add_assoc]

/-- C8: `estimate_remaining_run_time` returns infinity iff some step at or
after the start index is a repeating ModStep; otherwise it returns the
finite sum of the individual step durations, where a non-repeating ModStep
with non-negative time contributes `time_s * legs` (legs = 2 for
rise-and-fall, else 1) and FreqStep/StopStep contribute 0. -/
theorem C8_estimator_totals (steps : List Step) (i : ℕ) (fw : Option ℚ) :
    (estimateRemainingRunTime steps i fw = .inf ↔
      ∃ s ∈ steps.drop i, isRepeatModB s) ∧
    ((∀ s ∈ steps.drop i, isRepeatModB s = false ∧ modTimeNonneg s) →
      estimateRemainingRunTime steps i fw
        = .fin (((steps.drop i).map (claimStepDuration fw)).sum)) ∧
    (∀ (a b t u : ℚ) (d : String) (av : Bool) (o : Options) (l : ℕ), 0 ≤ t →
      estimateStepDuration (.mod a b t u d av false o l) fw
        = .fin (t * (if d = "rise-and-fall" then 2 else 1))) ∧
    (∀ (a b t u : ℚ) (d : String) (av : Bool) (o : Options) (l : ℕ),
      estimateStepDuration (.mod a b t u d av true o l) fw = .inf) ∧
    (∀ (hz : ℚ) (o : Options) (l : ℕ),
      estimateStepDuration (.freq hz o l) fw = .fin 0) ∧
    (∀ l : ℕ, estimateStepDuration (.stop l) fw = .fin 0) := by
  refine ⟨?_, ?_, ?_, ?_, ?_, ?_⟩
  · exact estRunGo_inf_iff fw (steps.drop i) 0
  · intro h
    unfold estimateRemainingRunTime
    rw [estRunGo_fin fw _ h 0, zero_add]
  · intro a b t u d av o l ht
    exact estimateStepDuration_eq_claim _ fw (by simp [isRepeatModB]) ht
  · exact fun a b t u d av o l => rfl
  · exact fun hz o l => rfl
  · exact fun l => rfl

/-- C8 witness: a concrete repeat-free sequence sums to 2 (wait) + 6
(rise-and-fall mod of 3 s per leg) = 8 seconds. -/
theorem C8_witness :
    estimateRemainingRunTime
      [Step.freq 1 [] 1, Step.wait 2 1, Step.mod 0 10 3 50 "rise-and-fall" false false [] 2]
      0 none = .fin 8 := by
  have h := (C8_estimator_totals
    [Step.freq 1 [] 1, Step.wait 2 1, Step.mod 0 10 3 50 "rise-and-fall" false false [] 2]
    0 none).2.1
  rw [h ?hall]
  case hall =>
    intro s hs
    simp only [List.drop, List.mem_cons, List.not_mem_nil, or_false] at hs
    rcases hs with rfl | rfl | rfl <;> exact ⟨by rfl, by norm_num [modTimeNonneg]⟩
  norm_num [claimStepDuration, estimateStepDuration]

/-- C5: the source text `freq,[1000,2000],{"channel":1}\nwait,1` compiles,
via legacy expansion replaying the optional wait row once per listed
frequency, to exactly the four steps
`[Freq(1000, {channel: 1}), Wait(1), Freq(2000, {channel: 1}), Wait(1)]`. -/
theorem C5_legacy_expansion_scenario :
    parseCsvCommands "freq,[1000,2000],\x7b\"channel\":1\x7d\nwait,1"
      = .ok [Step.freq 1000 [("channel", Json.num 1)] 1,
             Step.wait 1 2,
             Step.freq 2000 [("channel", Json.num 1)] 1,
             Step.wait 1 2] := by
  with_unfolding_all rfl

/-- C3 counterexample: on the input `{a: "foo: bar, baz"}` the option parser
of the code fails, while the claimed algorithm — which re-attempts a strict
parse after EACH individual repair — succeeds (quoting the bare key already
yields valid JSON, but the code runs the bare-value repair on top of it,
which corrupts the string value before the only re-parse). -/
theorem C3_counterexample :
    (∃ e, parseJsonOptions "\x7ba: \"foo: bar, baz\"\x7d" 1 = .error e) ∧
    parseJsonOptionsSpec "\x7ba: \"foo: bar, baz\"\x7d" 1
      = .ok [("a", Json.str "foo: bar, baz")] :=
  ⟨⟨_, rfl⟩, rfl⟩

/-- Failure message of the option parser contains the (prefix-stripped)
original option text. -/
theorem optionsErrorMsg_contains (ln : ℕ) (raw : String) :
    ∃ pre post, optionsErrorMsg ln raw = pre ++ raw ++ post := by
  refine ⟨"Line " ++ toString ln
    ++ ": invalid JSON options. Hint: JSON requires double quotes and no trailing comma. Options seen: '",
    "'", ?_⟩
  simp [optionsErrorMsg, String.append_assoc]

/-- C3 (amended): the option parser attempts a strict JSON parse, re-tries
after stripping trailing commas, then applies the quote-bare-keys and
quote-bare-values repairs TOGETHER with a single final re-try (no
intermediate strict parse between the two quoting repairs); it fails only
after these attempts, with a message that includes the original
(prefix-stripped) unrepaired text. -/
theorem C3_option_parser_amended (raw0 : String) (ln : ℕ) (hne : pyStrip raw0 ≠ "") :
    (∀ o, tryJson (optionsEffectiveText raw0) = some o →
      parseJsonOptions raw0 ln = .ok o) ∧
    (∀ o, tryJson (optionsEffectiveText raw0) = none →
      tryJson (stripTrailingCommas (optionsEffectiveText raw0)) = some o →
      parseJsonOptions raw0 ln = .ok o) ∧
    (∀ o, tryJson (optionsEffectiveText raw0) = none →
      tryJson (stripTrailingCommas (optionsEffectiveText raw0)) = none →
      tryJson (quoteBareValues (quoteBareKeys
        (stripTrailingCommas (optionsEffectiveText raw0)))) = some o →
      parseJsonOptions raw0 ln = .ok o) ∧
    (tryJson (optionsEffectiveText raw0) = none →
      tryJson (stripTrailingCommas (optionsEffectiveText raw0)) = none →
      tryJson (quoteBareValues (quoteBareKeys
        (stripTrailingCommas (optionsEffectiveText raw0)))) = none →
      ∃ pre post, parseJsonOptions raw0 ln
        = .error (pre ++ optionsEffectiveText raw0 ++ post)) := by
  refine ⟨?_, ?_, ?_, ?_⟩
  · intro o h1
    simp [parseJsonOptions, hne, h1]
  · intro o h1 h2
    simp [parseJsonOptions, hne, h1, h2]
  · intro o h1 h2 h3
    simp [parseJsonOptions, hne, h1, h2, h3]
  · intro h1 h2 h3
    obtain ⟨pre, post, hm⟩ := optionsErrorMsg_contains ln (optionsEffectiveText raw0)
    refine ⟨pre, post, ?_⟩
    rw [← hm]
    simp [parseJsonOptions, hne, h1, h2, h3]

/-- C3 witness: a strict-JSON input parses on the first attempt. -/
theorem C3_witness :
    parseJsonOptions "\x7b\"a\":1\x7d" 1 = .ok [("a", Json.num 1)] := by
  have h := (C3_option_parser_amended "\x7b\"a\":1\x7d" 1 (by decide)).1
  exact h _ (by with_unfolding_all rfl)

/-- C1 counterexample: an exception raised inside the `on_status` or
`on_progress` observer callback propagates out of the dry run and aborts it
(exit value never produced), while the same exception in `on_checkpoint` is
swallowed and the run completes with exit code 0. -/
theorem C1_counterexample :
    runSequenceDry [Step.stop 1]
      ⟨some (fun _ => .error ()), none, none, none⟩ = .error () ∧
    runSequenceDry [Step.stop 1]
      ⟨none, some (fun _ => .error ()), none, none⟩ = .error () ∧
    runSequenceDry [Step.stop 1]
      ⟨none, none, some (fun _ => .error ()), none⟩ = .ok 0 :=
  ⟨rfl, rfl, rfl⟩

/-- Checkpoint notification never propagates a callback exception. -/
theorem setCheckpointCall_ok (cb : Callbacks) (ck : Checkpoint) :
    setCheckpointCall cb ck = .ok () := by
  unfold setCheckpointCall
  cases cb.on_checkpoint with
  | none => rfl
  | some f => cases f ck <;> rfl

/-- With a non-raising status callback the status helper succeeds. -/
theorem statusCall_ok (cb : Callbacks) (hs : neverRaises cb.on_status) (msg : String) :
    statusCall cb msg = .ok () := by
  unfold statusCall
  cases h : cb.on_status with
  | none => rfl
  | some f => exact hs f h msg

/-- With a non-raising progress callback the progress helper succeeds. -/
theorem progressCall_ok (cb : Callbacks) (hp : neverRaises cb.on_progress) (i total : ℕ) :
    progressCall cb i total = .ok () := by
  unfold progressCall
  cases h : cb.on_progress with
  | none => rfl
  | some f => exact hp f h (i, total)

/-- The dry-run loop completes with exit code 0 whenever the status and
progress callbacks do not raise, regardless of how the checkpoint and
device-state callbacks behave. -/
theorem runStepsDry_ok (cb : Callbacks) (hs : neverRaises cb.on_status)
    (hp : neverRaises cb.on_progress) (total : ℕ) :
    ∀ (l : List Step) (i : ℕ), runStepsDry cb total l i = .ok 0 := by
  intro l
  induction l with
  | nil =>
    intro i
    simp only [runStepsDry, statusCall_ok cb hs]
    rfl
  | cons s rest ih =>
    intro i
    simp only [runStepsDry, setCheckpointCall_ok, statusCall_ok cb hs,
      progressCall_ok cb hp, ih]
    rfl

/-- C1 (amended): exceptions raised in the `on_checkpoint` (and
`on_device_state`) observer callbacks are swallowed and never abort the run
— the run result does not depend on them at all — but `on_status` and
`on_progress` are invoked without an exception handler, so the "never
aborts" guarantee holds only when those two callbacks do not raise. -/
theorem C1_callbacks_amended (steps : List Step) (cb : Callbacks)
    (hs : neverRaises cb.on_status) (hp : neverRaises cb.on_progress) :
    runSequenceDry steps cb = .ok 0 :=
  runStepsDry_ok cb hs hp steps.length steps 0

/-- C1 witness: with quiet status/progress callbacks and raising
checkpoint/device-state callbacks, the run still returns exit code 0. -/
theorem C1_witness :
    runSequenceDry [Step.wait 1 1]
      ⟨none, none, some (fun _ => .error ()), some (fun _ => .error ())⟩ = .ok 0 :=
  C1_callbacks_amended [Step.wait 1 1] _ (fun _ hf => nomatch hf) (fun _ hf => nomatch hf)

end JdsController
